import Mathlib

/-!
Verification development for the aino anomaly-detection backend
(`src/backend-python/app/services/train_service.py` and
`src/backend-python/train.py`).

Conventions of the shallow embedding:
* pandas / numpy floats are modelled as `ℚ`; a NaN cell is `Option.none`;
* a pandas `Series.__getitem__` on a missing key (Python `KeyError`)
  is modelled with `Except String`, the error payload naming the key;
* boolean columns are `Bool`; DataFrames are modelled either as records
  (when the accessed columns are fixed) or as association lists / column
  tables (when column presence itself is the question);
* the MongoDB `anomalies` collection is a list of `(ticker, datetime)`
  keys, which is all the duplicate-check logic looks at.
-/

/-- One flagged bar's rule flags and feature values, as read by
`identify_reason` (train_service.py lines 824-851).  This record form
assumes every column the function touches is present; column-missing
behaviour is modelled separately by `identifyReasonDyn`. -/
structure FlagRow where
  is_flash_crash : Bool
  is_vol_anomaly : Bool
  is_price_anomaly : Bool
  MACD_Cross_Up : Bool
  MACD_Cross_Down : Bool
  EMA_Cross_Up : Bool
  EMA_Cross_Down : Bool
  is_absorption : Bool
  is_vei_anomaly : Bool
  is_price_volume_warning : Bool
  Close_Z : ℚ

/-- `identify_reason` (train_service.py lines 824-851), transliterated:
each `if ...: return ...` becomes one `if`/`else if` arm, in source order. -/
def identify_reason (row : FlagRow) : String :=
  if row.is_flash_crash then "Flash Crash"
  else if row.is_vol_anomaly && row.is_price_anomaly then "Vol+Price Spike"
  else if row.MACD_Cross_Up && row.EMA_Cross_Up then "Double Bull Cross"
  else if row.MACD_Cross_Down && row.EMA_Cross_Down then "Double Bear Cross"
  else if row.MACD_Cross_Up then "MACD Bull Cross"
  else if row.MACD_Cross_Down then "MACD Bear Cross"
  else if row.is_absorption then "Absorption"
  else if row.is_vol_anomaly then "High Vol"
  else if row.is_price_anomaly then "Price Shock"
  else if row.is_vei_anomaly then "VEI Break"
  else if row.is_price_volume_warning then "P+V Warning"
  else if 2 < |row.Close_Z| then "Price Z-Score"
  else "Normal"

/-- The reason hierarchy as the spec words it (spec §4.4, items 1-11):
first match wins, later rules never override an earlier match.  Written
from the spec's list, to be compared with `identify_reason`. -/
def specReasonPriority (row : FlagRow) : String :=
  if row.is_flash_crash then "Flash Crash"
  else if row.is_vol_anomaly && row.is_price_anomaly then "Vol+Price Spike"
  else if row.MACD_Cross_Up && row.EMA_Cross_Up then "Double Bull Cross"
  else if row.MACD_Cross_Down && row.EMA_Cross_Down then "Double Bear Cross"
  else if row.MACD_Cross_Up then "MACD Bull Cross"
  else if row.MACD_Cross_Down then "MACD Bear Cross"
  else if row.is_absorption then "Absorption"
  else if row.is_vol_anomaly then "High Vol"
  else if row.is_price_anomaly then "Price Shock"
  else if row.is_vei_anomaly then "VEI Break"
  else if row.is_price_volume_warning then "P+V Warning"
  else if 2 < |row.Close_Z| then "Price Z-Score"
  else "Normal"

/-- A pipeline row whose boolean columns are an association list (a pandas
Series may or may not carry a given flag column), plus the always-present
numeric `Close_Z` column produced by `data_preprocessing` (line 405). -/
structure PipeRow where
  flags : List (String × Bool)
  Close_Z : ℚ

/-- Column lookup on the flag part of a row. -/
def PipeRow.getFlag (r : PipeRow) (k : String) : Option Bool :=
  (r.flags.find? (fun p => p.1 == k)).map (fun p => p.2)

/-- `row[k]` for a boolean column: raises `KeyError(k)` when absent,
as pandas does. -/
def flagE (r : PipeRow) (k : String) : Except String Bool :=
  match r.getFlag k with
  | none => Except.error k
  | some b => Except.ok b

/-- `identify_reason` with pandas' dynamic column semantics: reading a
missing column raises `KeyError` (modelled as `Except.error` carrying the
column name).  Short-circuiting of Python `and` is preserved: the second
conjunct is only read when the first is truthy. -/
def identifyReasonDyn (r : PipeRow) : Except String String := do
  if (← flagE r "is_flash_crash") then return "Flash Crash"
  if (← flagE r "is_vol_anomaly") then
    if (← flagE r "is_price_anomaly") then return "Vol+Price Spike"
  if (← flagE r "MACD_Cross_Up") then
    if (← flagE r "EMA_Cross_Up") then return "Double Bull Cross"
  if (← flagE r "MACD_Cross_Down") then
    if (← flagE r "EMA_Cross_Down") then return "Double Bear Cross"
  if (← flagE r "MACD_Cross_Up") then return "MACD Bull Cross"
  if (← flagE r "MACD_Cross_Down") then return "MACD Bear Cross"
  if (← flagE r "is_absorption") then return "Absorption"
  if (← flagE r "is_vol_anomaly") then return "High Vol"
  if (← flagE r "is_price_anomaly") then return "Price Shock"
  if (← flagE r "is_vei_anomaly") then return "VEI Break"
  if (← flagE r "is_price_volume_warning") then return "P+V Warning"
  if 2 < |r.Close_Z| then return "Price Z-Score"
  return "Normal"

/-- The boolean signal columns `data_preprocessing` adds (train_service.py
lines 482-484): `MACD_Cross_Up`, `MACD_Cross_Down`, `EMA_Cross_Up` — and
no others.  The crossing conditions themselves are abstracted into the
three booleans. -/
def preprocessCrossFlags (mu md eu : Bool) : List (String × Bool) :=
  [("MACD_Cross_Up", mu), ("MACD_Cross_Down", md), ("EMA_Cross_Up", eu)]

/-- `compute_rule_flags` (train_service.py lines 853-886): appends the
five flag columns it computes (lines 878-883) to the row.  The numeric
inputs `Vol_Z`, `VEI`, `Price_Shock`, `Price_Shock_Std` are parameters;
the thresholds are the source's literals. -/
def computeRuleFlagsRow (volZ vei priceShock pstd : ℚ) (r : PipeRow) : PipeRow :=
  { r with flags := r.flags ++
      [("is_vol_anomaly", decide ((3 : ℚ) < volZ)),
       ("is_price_anomaly", decide (pstd * (5/2) < |priceShock|)),
       ("is_vei_anomaly", decide ((6/5 : ℚ) < vei)),
       ("is_absorption", decide ((2 : ℚ) < volZ) && decide (|priceShock| < pstd * (1/2))),
       ("Price_warning", decide ((2 : ℚ) < volZ))] }

/-- C2: for every input row the reason classifier returns exactly the
string chosen by the spec's strict first-match priority list (§4.4), and
in particular a row with `is_flash_crash` set is always classified
"Flash Crash", whatever the other flags say. -/
theorem c2_reason_priority (row : FlagRow) :
    identify_reason row = specReasonPriority row ∧
      (row.is_flash_crash = true → identify_reason row = "Flash Crash") := by
  constructor
  · rfl
  · intro h
    simp [identify_reason, h]

/-- A synthetic bar satisfying both `is_flash_crash` and `MACD_Cross_Up`. -/
def c2Row : FlagRow :=
  { is_flash_crash := true, is_vol_anomaly := false, is_price_anomaly := false,
    MACD_Cross_Up := true, MACD_Cross_Down := false, EMA_Cross_Up := true,
    EMA_Cross_Down := false, is_absorption := false, is_vei_anomaly := false,
    is_price_volume_warning := false, Close_Z := 0 }

/-- Witness for C2 at the spec's own synthetic bar: flash crash and MACD
bull cross both set, classified "Flash Crash". -/
theorem c2_reason_priority_witness :
    identify_reason c2Row = specReasonPriority c2Row ∧
      identify_reason c2Row = "Flash Crash" :=
  ⟨(c2_reason_priority c2Row).1, (c2_reason_priority c2Row).2 rfl⟩

/-- C3: on every row the pipeline actually produces — `data_preprocessing`
adds only the three crossover flags, `compute_rule_flags` appends its five
flags, none of which is `is_flash_crash` — the reason classifier's very
first column access `row['is_flash_crash']` raises `KeyError`, whatever
the numeric values and crossover booleans are.  The rule-flag output is
not augmented with all six spec flags, and reason classification of a
flagged bar does fail for lack of a flag column (callers mask this with
`except` fallbacks "System anomaly detected" / "Adaptive"). -/
theorem c3_reason_keyerror_on_pipeline_rows
    (volZ vei priceShock pstd z : ℚ) (mu md eu : Bool) :
    identifyReasonDyn
        (computeRuleFlagsRow volZ vei priceShock pstd
          { flags := preprocessCrossFlags mu md eu, Close_Z := z }) =
      Except.error "is_flash_crash" ∧
      (computeRuleFlagsRow volZ vei priceShock pstd
          { flags := preprocessCrossFlags mu md eu, Close_Z := z }).getFlag
        "is_flash_crash" = none := by
  constructor
  · rfl
  · rfl

/-- The `anomalies` collection, reduced to the `(ticker, datetime)` keys
that the duplicate checks query on; timestamps are modelled as `ℕ`. -/
abbrev AnomalyDB := List (String × ℕ)

/-- The adaptive path's persistence loop (train_service.py lines 785-815):
for each anomaly row, insert only if `count_documents` for the
`(ticker, datetime)` key is zero. -/
def adaptiveInsertLoop (ticker : String) (db : AnomalyDB) (times : List ℕ) : AnomalyDB :=
  times.foldl
    (fun d t => if d.count (ticker, t) = 0 then d ++ [(ticker, t)] else d) db

/-- One `detect_anomalies_incremental` run's effect on the `anomalies`
collection and the per-ticker detection metadata (train_service.py).
State: `db` plus `meta`, the `last_detected_timestamp` of the last
complete run (`none` if no complete metadata exists).

* lines 549-568: when metadata exists with status complete and the
  loaded data's `latest_timestamp` is not newer, the whole run is skipped;
* lines 616-656: otherwise all rows the model flags over the full loaded
  history are batch-inserted with `insert_many` — there is no per-record
  existence check on this path;
* lines 658-667: metadata is updated to the new latest timestamp.

`flagged` is the list of timestamps the (deterministic, seeded) model
flags over the loaded history. -/
def incrementalRun (ticker : String) (state : AnomalyDB × Option ℕ)
    (latest : ℕ) (flagged : List ℕ) : AnomalyDB × Option ℕ :=
  match state.2 with
  | some last =>
      if latest ≤ last then state
      else (state.1 ++ flagged.map (fun t => (ticker, t)), some latest)
  | none => (state.1 ++ flagged.map (fun t => (ticker, t)), some latest)

/-- C1 fails on the incremental path: starting from an empty collection,
run 1 over bars up to time 2 flags the bar at time 1 and stores it; run 2
over the overlapping window extended by one new bar (latest time 3)
re-scores the full history, flags time 1 again, and `insert_many` stores
it a second time — the ("AAPL", 1) record count after the re-run is 2,
not 1.  The per-(symbol, timestamp) existence check the claim requires is
absent from `detect_anomalies_incremental`. -/
theorem c1_incremental_rerun_duplicates :
    ((incrementalRun "AAPL"
        (incrementalRun "AAPL" ([], none) 2 [1]) 3 [1]).1.count ("AAPL", 1) = 2) ∧
      ¬ ((incrementalRun "AAPL"
        (incrementalRun "AAPL" ([], none) 2 [1]) 3 [1]).1.count ("AAPL", 1) = 1) := by
  constructor
  · rfl
  · decide

/-- Python `str.endswith`, on the character lists underlying the strings. -/
def strEndsWith (s suf : String) : Bool :=
  suf.data.isSuffixOf s.data

/-- Market key selection in `detect_anomalies_incremental`
(train_service.py line 516): `'JP' if ticker.endswith('.T') else
('TH' if ticker.endswith('.BK') else 'US')`. -/
def marketOfTickerService (t : String) : String :=
  if strEndsWith t ".T" then "JP" else if strEndsWith t ".BK" then "TH" else "US"

/-- Model selection in train.py `detect_anomalies` (lines 276-279):
`jp_model` iff the ticker ends in `.T`, otherwise `us_model` — there is
no Thailand branch on this path.  Returned as the market key of the model
used. -/
def marketOfTickerTrainPy (t : String) : String :=
  if strEndsWith t ".T" then "JP" else "US"

/-- C8 counterexample: in train.py's fixed-model path a `.BK` symbol is
scored with the US model, not the Thailand model the claim requires in
every fixed-model code path. -/
theorem c8_trainpy_bk_uses_us_model :
    marketOfTickerTrainPy "PTT.BK" = "US" ∧ marketOfTickerTrainPy "PTT.BK" ≠ "TH" := by
  constructor
  · rfl
  · decide

/-- C8 amended: the suffix→market mapping `.T`→JP, `.BK`→TH, else→US holds
in `detect_anomalies_incremental`; in train.py's `detect_anomalies` only
`.T`→JP is checked and every other symbol — `.BK` included — is scored
with the US model. -/
theorem c8_market_mapping (t : String) :
    (strEndsWith t ".T" = true →
      marketOfTickerService t = "JP" ∧ marketOfTickerTrainPy t = "JP") ∧
    (strEndsWith t ".T" = false → strEndsWith t ".BK" = true →
      marketOfTickerService t = "TH" ∧ marketOfTickerTrainPy t = "US") ∧
    (strEndsWith t ".T" = false → strEndsWith t ".BK" = false →
      marketOfTickerService t = "US" ∧ marketOfTickerTrainPy t = "US") := by
  refine ⟨fun h => ?_, fun h1 h2 => ?_, fun h1 h2 => ?_⟩ <;>
    simp [marketOfTickerService, marketOfTickerTrainPy, *]

/-- Witness for C8's amended mapping at the concrete symbols
"7203.T", "PTT.BK" and "AAPL". -/
theorem c8_market_mapping_witness :
    (marketOfTickerService "7203.T" = "JP" ∧ marketOfTickerTrainPy "7203.T" = "JP") ∧
      (marketOfTickerService "PTT.BK" = "TH" ∧ marketOfTickerTrainPy "PTT.BK" = "US") ∧
      (marketOfTickerService "AAPL" = "US" ∧ marketOfTickerTrainPy "AAPL" = "US") :=
  ⟨(c8_market_mapping "7203.T").1 (by decide),
    (c8_market_mapping "PTT.BK").2.1 (by decide) (by decide),
    (c8_market_mapping "AAPL").2.2 (by decide) (by decide)⟩

/-- Arithmetic mean of a list (pandas `.mean()` over the non-NaN values). -/
def listMean (l : List ℚ) : ℚ := l.sum / l.length

/-- pandas sample variance (`ddof=1`): NaN (`none`) on fewer than two
values, else `Σ (x − mean)² / (n − 1)`.  Used as the square of the rolling
or series standard deviation: for `s ≥ 0`, `s > c ↔ s² > c²`, so every
threshold comparison on an std below is phrased on the variance. -/
def sampleVar (l : List ℚ) : Option ℚ :=
  if l.length < 2 then none
  else some ((l.map (fun x => (x - listMean l) ^ 2)).sum / ((l.length : ℚ) - 1))

/-- `std` is the standard deviation of the sample `w` exactly when it is
NaN on fewer than two values and otherwise the nonnegative square root of
`sampleVar w`. -/
def IsSampleStd (w : List ℚ) (std : Option ℚ) : Prop :=
  (sampleVar w = none ∧ std = none) ∨
    (∃ v s, sampleVar w = some v ∧ std = some s ∧ 0 ≤ s ∧ s ^ 2 = v)

/-- One cell of `df['Close'].pct_change()` (train_service.py line 58):
previous close 0 with a nonzero current close gives ±inf, 0/0 gives NaN,
otherwise the relative change. -/
inductive RetCell where
  | val (q : ℚ)
  | nan
  | inf
  deriving DecidableEq

/-- `pct_change` over the close series: one cell per consecutive pair. -/
def pctChangeCells (closes : List ℚ) : List RetCell :=
  (closes.zip closes.tail).map (fun p =>
    if p.1 = 0 then (if p.2 = 0 then RetCell.nan else RetCell.inf)
    else RetCell.val ((p.2 - p.1) / p.1))

/-- `returns.std()` as a variance (see `sampleVar`): pandas skips NaN
cells; an infinite cell poisons the whole statistic to NaN; fewer than two
finite values give NaN. -/
def returnsVariance (closes : List ℚ) : Option ℚ :=
  let cells := pctChangeCells closes
  if cells.contains RetCell.inf then none
  else sampleVar (cells.filterMap (fun c =>
    match c with
    | RetCell.val q => some q
    | _ => none))

/-- `get_adaptive_contamination` (train_service.py lines 45-75), with the
std threshold tests `volatility > 0.20` / `volatility < 0.10` phrased on
the variance (`> 1/25` / `< 1/100`); a NaN volatility fails both
comparisons, landing in the final else, exactly as in Python.  `closes` is
`none` when the DataFrame is empty or has no `Close` column (line 53). -/
def getAdaptiveContamination (closes : Option (List ℚ)) : ℚ :=
  match closes with
  | none => 1/20
  | some cs =>
      match returnsVariance cs with
      | none => 1/20
      | some v =>
          if 1/25 < v then 1/10
          else if v < 1/100 then 1/20
          else 1/20

/-- C5: the adaptive contamination is a total function of the trailing
return volatility.  With `v` the variance of the 1-step close returns
(so volatility > 0.20 ↔ v > 1/25, volatility < 0.10 ↔ v < 1/100):
volatility above 20% gives contamination 1/10, inside the documented
[0.08, 0.10] bucket; below 10% gives 1/20 = 0.05, not near zero; the
normal range gives 1/20; and the exact boundary v = 1/25 (std = 0.20)
deterministically lands in the normal bucket, 1/20. -/
theorem c5_adaptive_contamination (closes : List ℚ) (v : ℚ)
    (h : returnsVariance closes = some v) :
    (1/25 < v → getAdaptiveContamination (some closes) = 1/10 ∧
      (2/25 : ℚ) ≤ 1/10 ∧ (1/10 : ℚ) ≤ 1/10) ∧
    (v < 1/100 → getAdaptiveContamination (some closes) = 1/20 ∧ ¬ (1/20 : ℚ) < 1/100) ∧
    (1/100 ≤ v → v ≤ 1/25 → getAdaptiveContamination (some closes) = 1/20) ∧
    (v = 1/25 → getAdaptiveContamination (some closes) = 1/20) := by
  refine ⟨fun hv => ?_, fun hv => ?_, fun h1 h2 => ?_, fun hv => ?_⟩
  · rw [getAdaptiveContamination, h]
    norm_num [hv]
  · rcases lt_or_le v (1/25) with h' | h'
    · rw [getAdaptiveContamination, h]
      norm_num [not_lt.mpr (le_of_lt h'), hv]
    · exfalso
      have : (1/100 : ℚ) < 1/25 := by norm_num
      linarith
  · rw [getAdaptiveContamination, h]
    show (if 1/25 < v then (1 : ℚ)/10 else if v < 1/100 then 1/20 else 1/20) = 1/20
    rw [if_neg (not_lt.mpr h2), ite_self]
  · rw [getAdaptiveContamination, h, hv]
    norm_num

/-- Evaluation of `returnsVariance` on the three witness series: [1, 2, 1]
(returns 1, −1/2, variance 9/8 > 1/25), [100, 101, 101] (returns 1/100,
0, variance 1/20000 < 1/100), and [5, 6, 24/5, 24/5] (returns 1/5, −1/5,
0, variance exactly 1/25 — std exactly 0.20). -/
theorem returnsVariance_witness_values :
    returnsVariance [1, 2, 1] = some (9/8) ∧
      returnsVariance [100, 101, 101] = some (1/20000) ∧
      returnsVariance [5, 6, 24/5, 24/5] = some (1/25) := by
  refine ⟨?_, ?_, ?_⟩ <;>
  · norm_num [returnsVariance, pctChangeCells, sampleVar, listMean,
      List.contains, List.filterMap]
    intro h
    simp at h

/-- Witness for C5 on three concrete close series, one per volatility
bucket, the third sitting exactly on the std = 0.20 boundary. -/
theorem c5_adaptive_contamination_witness :
    getAdaptiveContamination (some [1, 2, 1]) = 1/10 ∧
      getAdaptiveContamination (some [100, 101, 101]) = 1/20 ∧
      getAdaptiveContamination (some [5, 6, 24/5, 24/5]) = 1/20 :=
  ⟨((c5_adaptive_contamination [1, 2, 1] (9/8)
      returnsVariance_witness_values.1).1 (by norm_num)).1,
    ((c5_adaptive_contamination [100, 101, 101] (1/20000)
      returnsVariance_witness_values.2.1).2.1 (by norm_num)).1,
    (c5_adaptive_contamination [5, 6, 24/5, 24/5] (1/25)
      returnsVariance_witness_values.2.2).2.2.2 rfl⟩

/-- The trailing 20-observation window pandas `rolling(20, min_periods=1)`
aggregates at index `i` (train_service.py line 402, train.py line 193-194). -/
def windowAt (closes : List ℚ) (i : ℕ) : List ℚ :=
  (closes.take (i + 1)).drop (i + 1 - 20)

/-- One cell of train.py line 195,
`(Close - roll_mean_20) / roll_std_20.replace(0, np.nan)`: NaN std stays
NaN, an exactly-zero std is replaced by NaN before dividing, and NaN
propagates through the division. -/
def zscoreCellTrainPy (close mean : ℚ) (std : Option ℚ) : Option ℚ :=
  match std with
  | none => none
  | some s => if s = 0 then none else some ((close - mean) / s)

/-- One cell of train_service.py line 405,
`(Close - roll_mean_20) / (roll_std_20 + 1e-9)`: NaN std propagates, and
otherwise the epsilon-shifted denominator is used as-is. -/
def closeZCellTrainService (close mean : ℚ) (std : Option ℚ) : Option ℚ :=
  match std with
  | none => none
  | some s => some ((close - mean) / (s + 1/1000000000))

/-- A list of squares summing to zero is constant at the base point. -/
theorem sq_dev_sum_zero (μ : ℚ) :
    ∀ l : List ℚ, (l.map (fun x => (x - μ) ^ 2)).sum = 0 → ∀ x ∈ l, x = μ := by
  intro l
  induction l with
  | nil => simp
  | cons a t ih =>
    intro h x hx
    rw [List.map_cons, List.sum_cons] at h
    have ha : 0 ≤ (a - μ) ^ 2 := sq_nonneg _
    have ht : 0 ≤ (t.map (fun x => (x - μ) ^ 2)).sum := by
      apply List.sum_nonneg
      intro y hy
      rcases List.mem_map.mp hy with ⟨b, _, rfl⟩
      exact sq_nonneg _
    rcases List.mem_cons.mp hx with rfl | hxt
    · have : (x - μ) ^ 2 = 0 := by linarith
      have := pow_eq_zero_iff (n := 2) (by norm_num) |>.mp this
      linarith [sub_eq_zero.mp this]
    · exact ih (by linarith) x hxt

/-- Sample variance zero forces every observation to equal the mean. -/
theorem sampleVar_zero_eq_mean (w : List ℚ) (hv : sampleVar w = some 0) :
    ∀ x ∈ w, x = listMean w := by
  unfold sampleVar at hv
  by_cases hlen : w.length < 2
  · simp [hlen] at hv
  · simp only [hlen, if_false, Option.some_inj] at hv
    have hlen2 : 2 ≤ w.length := not_lt.mp hlen
    have hpos : (0 : ℚ) < (w.length : ℚ) - 1 := by
      have h2 : (2 : ℚ) ≤ (w.length : ℚ) := by exact_mod_cast hlen2
      linarith
    have hsum : (w.map (fun x => (x - listMean w) ^ 2)).sum = 0 := by
      rcases div_eq_zero_iff.mp hv with h | h
      · exact h
      · exact absurd h (ne_of_gt hpos)
    exact sq_dev_sum_zero (listMean w) w hsum

/-- C4 amended: at a window whose rolling standard deviation is exactly
zero (all window closes equal), train.py's `zscore_20` cell is the NaN
sentinel, while train_service's `Close_Z` cell is the finite value 0 —
the epsilon denominator `std + 1e-9` is nonzero and the numerator
`close − mean` vanishes because the current close sits in its own
constant window.  Neither cell is infinite. -/
theorem c4_zero_std_cells (w : List ℚ) (c : ℚ) (std : Option ℚ)
    (hc : c ∈ w) (hv : sampleVar w = some 0) (hstd : IsSampleStd w std) :
    zscoreCellTrainPy c (listMean w) std = none ∧
      closeZCellTrainService c (listMean w) std = some 0 := by
  rcases hstd with ⟨hnone, _⟩ | ⟨v, s, hv', hs, hs0, hsq⟩
  · rw [hv] at hnone
    exact absurd hnone (by simp)
  · rw [hv] at hv'
    have hv0 : v = 0 := by
      have := Option.some_inj.mp hv'
      linarith
    have hszero : s = 0 := by
      have : s ^ 2 = 0 := by rw [hsq, hv0]
      have := pow_eq_zero_iff (n := 2) (by norm_num) |>.mp this
      exact this
    have hcm : c = listMean w := sampleVar_zero_eq_mean w hv c hc
    subst hs
    rw [hszero]
    constructor
    · rw [zscoreCellTrainPy]
      simp
    · rw [closeZCellTrainService]
      rw [hcm]
      norm_num

/-- C4 counterexample: for the constant close series [5, 5, 5], the
trailing window at index 2 is [5, 5, 5], its rolling std is exactly zero,
yet train_service's `Close_Z` cell there is `some 0` — a finite value, not
the NaN sentinel the claim requires at every zero-std index. -/
theorem c4_trainservice_zero_std_finite :
    sampleVar (windowAt [5, 5, 5] 2) = some 0 ∧
      IsSampleStd (windowAt [5, 5, 5] 2) (some 0) ∧
      closeZCellTrainService 5 (listMean (windowAt [5, 5, 5] 2)) (some 0) = some 0 ∧
      closeZCellTrainService 5 (listMean (windowAt [5, 5, 5] 2)) (some 0) ≠ none := by
  have hwin : windowAt [5, 5, 5] 2 = [5, 5, 5] := by rfl
  have hvar : sampleVar (windowAt [5, 5, 5] 2) = some 0 := by
    rw [hwin]
    norm_num [sampleVar, listMean]
  refine ⟨hvar, Or.inr ⟨0, 0, hvar, rfl, le_refl 0, by norm_num⟩, ?_, ?_⟩
  · rw [hwin]
    norm_num [closeZCellTrainService, listMean]
  · rw [hwin]
    simp [closeZCellTrainService]

/-- Witness for C4's amended statement at the constant series window
[5, 5, 5] with std exactly 0. -/
theorem c4_zero_std_cells_witness :
    zscoreCellTrainPy 5 (listMean [5, 5, 5]) (some 0) = none ∧
      closeZCellTrainService 5 (listMean [5, 5, 5]) (some 0) = some 0 :=
  c4_zero_std_cells [5, 5, 5] 5 (some 0) (by norm_num)
    (by norm_num [sampleVar, listMean])
    (Or.inr ⟨0, 0, by norm_num [sampleVar, listMean], rfl, le_refl 0, by norm_num⟩)

/-- One OHLC bar (volume plays no role in the wick computation). -/
structure Bar where
  op : ℚ
  hi : ℚ
  lo : ℚ
  cl : ℚ

/-- train.py line 227: `body = |Close - Open|`. -/
def Bar.body (b : Bar) : ℚ := |b.cl - b.op|

/-- train.py line 228: `upper_wick = High - max(Open, Close)`. -/
def Bar.upperWick (b : Bar) : ℚ := b.hi - max b.op b.cl

/-- train.py line 229: `lower_wick = min(Open, Close) - Low`. -/
def Bar.lowerWick (b : Bar) : ℚ := min b.op b.cl - b.lo

/-- The forward loop of train.py lines 234-239: at each index, if
`body == 0` take the previous row's already-computed `wick_ratio`
(0 at index 0), else `(upper_wick + lower_wick) / body`.  Out-of-range
indices never occur in the source loop; the model carries the previous
value there so the recursion is total. -/
def wickRatioRaw (bars : List Bar) : ℕ → ℚ
  | 0 =>
      match bars.get? 0 with
      | none => 0
      | some b => if b.body = 0 then 0 else (b.upperWick + b.lowerWick) / b.body
  | i + 1 =>
      match bars.get? (i + 1) with
      | none => wickRatioRaw bars i
      | some b =>
          if b.body = 0 then wickRatioRaw bars i
          else (b.upperWick + b.lowerWick) / b.body

/-- train.py line 242: `wick_ratio.clip(upper=20)` — an upper clip only. -/
def wickRatio (bars : List Bar) (i : ℕ) : ℚ :=
  min (wickRatioRaw bars i) 20

/-- OHLC well-formedness: the high is at least the body's top and the low
at most the body's bottom, as real market bars satisfy. -/
def WellFormedBars (bars : List Bar) : Prop :=
  ∀ b ∈ bars, max b.op b.cl ≤ b.hi ∧ b.lo ≤ min b.op b.cl

/-- Under well-formedness every pre-clip loop value is nonnegative. -/
theorem wickRatioRaw_nonneg (bars : List Bar) (hwf : WellFormedBars bars) :
    ∀ i, 0 ≤ wickRatioRaw bars i := by
  intro i
  induction i with
  | zero =>
      rw [wickRatioRaw]
      cases hb : bars.get? 0 with
      | none => exact le_refl 0
      | some b =>
          rcases hwf b (List.get?_mem hb) with ⟨h1, h2⟩
          by_cases h0 : b.body = 0
          · simp [h0]
          · have hwick : 0 ≤ b.upperWick + b.lowerWick := by
              rw [Bar.upperWick, Bar.lowerWick]
              linarith
            have hbody : 0 ≤ b.body := abs_nonneg _
            simp only [h0, if_false]
            exact div_nonneg hwick hbody
  | succ n ih =>
      rw [wickRatioRaw]
      cases hb : bars.get? (n + 1) with
      | none => exact ih
      | some b =>
          rcases hwf b (List.get?_mem hb) with ⟨h1, h2⟩
          by_cases h0 : b.body = 0
          · simp only [h0, if_true, if_pos]
            exact ih
          · have hwick : 0 ≤ b.upperWick + b.lowerWick := by
              rw [Bar.upperWick, Bar.lowerWick]
              linarith
            have hbody : 0 ≤ b.body := abs_nonneg _
            simp only [h0, if_false]
            exact div_nonneg hwick hbody

/-- C6 amended: the wick-ratio column of train.py's `data_preprocessing`
satisfies: a `body = 0` row carries the previous row's (clipped) value, 0
at index 0 — never NaN, never infinite; a `body ≠ 0` row is the wick/body
ratio clipped from above at 20; and for well-formed OHLC bars every value
lies in [0, 20], hence has magnitude at most 20.  (The source's
`clip(upper=20)` clips from above only; the magnitude bound needs
well-formedness — see the counterexample.) -/
theorem c6_wick_ratio (bars : List Bar) (i : ℕ) :
    (∀ b, bars.get? i = some b → b.body = 0 →
      (i = 0 → wickRatio bars i = 0) ∧
        (∀ j, i = j + 1 → wickRatio bars i = wickRatio bars j)) ∧
      (∀ b, bars.get? i = some b → b.body ≠ 0 →
        wickRatio bars i = min ((b.upperWick + b.lowerWick) / b.body) 20) ∧
      (WellFormedBars bars →
        0 ≤ wickRatio bars i ∧ wickRatio bars i ≤ 20 ∧ |wickRatio bars i| ≤ 20) := by
  refine ⟨fun b hb h0 => ⟨fun hi => ?_, fun j hj => ?_⟩, fun b hb h0 => ?_, fun hwf => ?_⟩
  · subst hi
    rw [wickRatio, wickRatioRaw, hb]
    simp [h0]
  · subst hj
    rw [wickRatio, wickRatio, wickRatioRaw, hb]
    simp [h0]
  · cases i with
    | zero =>
        rw [wickRatio, wickRatioRaw, hb]
        simp [h0]
    | succ n =>
        rw [wickRatio, wickRatioRaw, hb]
        simp [h0]
  · have hraw : 0 ≤ wickRatioRaw bars i := wickRatioRaw_nonneg bars hwf i
    have h1 : 0 ≤ wickRatio bars i := le_min hraw (by norm_num)
    have h2 : wickRatio bars i ≤ 20 := min_le_right _ _
    exact ⟨h1, h2, abs_le.mpr ⟨by linarith, h2⟩⟩

/-- A malformed but accepted bar: open 100, high 50, low 200, close 101. -/
def badBar : Bar := { op := 100, hi := 50, lo := 200, cl := 101 }

/-- C6 counterexample: on the bar series [badBar] the single wick_ratio
value is −151: `clip(upper=20)` leaves negative values untouched, so its
magnitude exceeds 20 — "every wick_ratio value is clipped to a maximum
magnitude of 20" fails as stated. -/
theorem c6_wick_ratio_not_magnitude_clipped :
    wickRatio [badBar] 0 = -151 ∧ ¬ |wickRatio [badBar] 0| ≤ 20 := by
  have hval : wickRatio [badBar] 0 = -151 := by
    rw [wickRatio, wickRatioRaw]
    norm_num [badBar, Bar.body, Bar.upperWick, Bar.lowerWick,
      min_def, max_def, abs_of_nonneg]
  refine ⟨hval, ?_⟩
  rw [hval]
  intro habs
  have := abs_le.mp habs
  linarith [this.1]

/-- Witness for C6's amended statement: a two-bar well-formed series with
a zero-body second bar — index 1 carries index 0's value, both lie in
[0, 20]. -/
theorem c6_wick_ratio_witness :
    wickRatio [⟨10, 14, 9, 12⟩, ⟨11, 13, 10, 11⟩] 1 =
        wickRatio [⟨10, 14, 9, 12⟩, ⟨11, 13, 10, 11⟩] 0 ∧
      wickRatio [⟨10, 14, 9, 12⟩, ⟨11, 13, 10, 11⟩] 0 =
        min ((Bar.upperWick ⟨10, 14, 9, 12⟩ + Bar.lowerWick ⟨10, 14, 9, 12⟩) /
          Bar.body ⟨10, 14, 9, 12⟩) 20 ∧
      0 ≤ wickRatio [⟨10, 14, 9, 12⟩, ⟨11, 13, 10, 11⟩] 1 ∧
      |wickRatio [⟨10, 14, 9, 12⟩, ⟨11, 13, 10, 11⟩] 1| ≤ 20 := by
  have hwf : WellFormedBars [⟨10, 14, 9, 12⟩, ⟨11, 13, 10, 11⟩] := by
    intro b hb
    rcases List.mem_cons.mp hb with rfl | hb'
    · constructor <;> norm_num [max_def, min_def]
    · rcases List.mem_cons.mp hb' with rfl | h
      · constructor <;> norm_num [max_def, min_def]
      · cases h
  have hbody0 : Bar.body (⟨11, 13, 10, 11⟩ : Bar) = 0 := by
    norm_num [Bar.body]
  have hbody1 : Bar.body (⟨10, 14, 9, 12⟩ : Bar) ≠ 0 := by
    norm_num [Bar.body, abs_of_nonneg]
  refine ⟨?_, ?_, ?_, ?_⟩
  · exact ((c6_wick_ratio [⟨10, 14, 9, 12⟩, ⟨11, 13, 10, 11⟩] 1).1
      ⟨11, 13, 10, 11⟩ rfl hbody0).2 0 rfl
  · exact (c6_wick_ratio [⟨10, 14, 9, 12⟩, ⟨11, 13, 10, 11⟩] 0).2.1
      ⟨10, 14, 9, 12⟩ rfl hbody1
  · exact ((c6_wick_ratio [⟨10, 14, 9, 12⟩, ⟨11, 13, 10, 11⟩] 1).2.2 hwf).1
  · exact ((c6_wick_ratio [⟨10, 14, 9, 12⟩, ⟨11, 13, 10, 11⟩] 1).2.2 hwf).2.2

/-- `Close.diff()`: consecutive close differences (defined from index 1 on;
the leading NaN is dropped, matching how `ewm(adjust=False)` starts its
recursion at the first valid observation). -/
def closeDiffs (closes : List ℚ) : List ℚ :=
  (closes.zip closes.tail).map (fun p => p.2 - p.1)

/-- One RSI cell from a smoothed gain/loss pair (train_service.py lines
441-442, train.py lines 213-214): `rs = avg_gain / avg_loss.replace(0,
1e-6)` and `RSI = 100 - 100/(1 + rs)`. -/
def rsiVal (g al : ℚ) : ℚ :=
  100 - 100 / (1 + g / (if al = 0 then 1/1000000 else al))

/-- The Wilder smoothing recursion: `ewm(com=13, adjust=False)` on gains
and losses simultaneously, i.e. `avg ← (13/14)·avg + (1/14)·x` with
`gain = max(delta, 0)` and `loss = max(-delta, 0)` (clip at 0,
train_service.py lines 436-440), emitting one RSI cell per delta. -/
def rsiGo (ag al : ℚ) : List ℚ → List ℚ
  | [] => []
  | d :: ds =>
      let g := (13/14) * ag + (1/14) * max d 0
      let l := (13/14) * al + (1/14) * max (-d) 0
      rsiVal g l :: rsiGo g l ds

/-- The RSI column of `calculate_rsi` (train_service.py lines 435-444; the
train.py variant at lines 208-214 differs only in `min_periods`, which
changes which leading cells are NaN, not any computed value): the first
smoothed pair is the first gain/loss itself, then the recursion above. -/
def rsiList (closes : List ℚ) : List ℚ :=
  match closeDiffs closes with
  | [] => []
  | d :: ds => rsiVal (max d 0) (max (-d) 0) :: rsiGo (max d 0) (max (-d) 0) ds

/-- An RSI cell built from nonnegative smoothed gain/loss lies in [0, 100]. -/
theorem rsiVal_bounds (g al : ℚ) (hg : 0 ≤ g) (hal : 0 ≤ al) :
    0 ≤ rsiVal g al ∧ rsiVal g al ≤ 100 := by
  rw [rsiVal]
  have hden : (0 : ℚ) < (if al = 0 then 1/1000000 else al) := by
    by_cases h : al = 0
    · rw [if_pos h]
      norm_num
    · rw [if_neg h]
      exact lt_of_le_of_ne hal (Ne.symm h)
  have hrs : 0 ≤ g / (if al = 0 then 1/1000000 else al) :=
    div_nonneg hg (le_of_lt hden)
  have h1 : (0 : ℚ) < 1 + g / (if al = 0 then 1/1000000 else al) := by linarith
  have hq1 : 100 / (1 + g / (if al = 0 then 1/1000000 else al)) ≤ 100 / 1 := by
    apply div_le_div_of_nonneg_left (by norm_num) (by norm_num) (by linarith)
  have hq0 : 0 < 100 / (1 + g / (if al = 0 then 1/1000000 else al)) :=
    div_pos (by norm_num) h1
  constructor
  · linarith [hq1]
  · linarith [hq0]

/-- Every cell the smoothing recursion emits from nonnegative running
averages lies in [0, 100]. -/
theorem rsiGo_bounds (ds : List ℚ) :
    ∀ ag al : ℚ, 0 ≤ ag → 0 ≤ al → ∀ x ∈ rsiGo ag al ds, 0 ≤ x ∧ x ≤ 100 := by
  induction ds with
  | nil =>
      intro ag al _ _ x hx
      cases hx
  | cons d t ih =>
      intro ag al hag hal x hx
      have hg : 0 ≤ (13/14 : ℚ) * ag + (1/14) * max d 0 := by
        have := le_max_right d 0
        positivity
      have hl : 0 ≤ (13/14 : ℚ) * al + (1/14) * max (-d) 0 := by
        have := le_max_right (-d) 0
        positivity
      rw [rsiGo] at hx
      rcases List.mem_cons.mp hx with rfl | hx'
      · exact rsiVal_bounds _ _ hg hl
      · exact ih _ _ hg hl x hx'

/-- C7: every RSI value the feature engine computes lies in [0, 100]: the
smoothed average gain and loss are nonnegative, a zero average loss is
replaced by the positive epsilon 1e-6 before the ratio, and
`100 − 100/(1 + rs)` with `rs ≥ 0` is bounded by construction. -/
theorem c7_rsi_bounds (closes : List ℚ) (x : ℚ) (hx : x ∈ rsiList closes) :
    0 ≤ x ∧ x ≤ 100 := by
  rw [rsiList] at hx
  cases hd : closeDiffs closes with
  | nil =>
      rw [hd] at hx
      cases hx
  | cons d ds =>
      rw [hd] at hx
      have hg : 0 ≤ max d 0 := le_max_right d 0
      have hl : 0 ≤ max (-d) 0 := le_max_right (-d) 0
      rcases List.mem_cons.mp hx with rfl | hx'
      · exact rsiVal_bounds _ _ hg hl
      · exact rsiGo_bounds ds _ _ hg hl x hx'

/-- Witness for C7 at the two-bar series [1, 2]: the single RSI value is
100·10⁶/(10⁶ + 1) (an all-gain window hitting the epsilon guard), and it
lies in [0, 100]. -/
theorem c7_rsi_bounds_witness :
    (100000000/1000001 : ℚ) ∈ rsiList [1, 2] ∧
      0 ≤ (100000000/1000001 : ℚ) ∧ (100000000/1000001 : ℚ) ≤ 100 := by
  have hmem : (100000000/1000001 : ℚ) ∈ rsiList [1, 2] := by
    norm_num [rsiList, closeDiffs, rsiGo, rsiVal, max_def]
  exact ⟨hmem, c7_rsi_bounds [1, 2] _ hmem⟩


/-- A DataFrame after preprocessing and rule-flag computation: a column
name list and positionally-indexed rows; a `none` cell is NaN. -/
structure Frame where
  cols : List String
  rows : List (List (Option ℚ))

/-- Cell lookup by column name (missing column and NaN cell both give
`none`; column presence is always tested separately on `cols`, as the
source does with `in df.columns`). -/
def cellOf (cols : List String) (row : List (Option ℚ)) (c : String) : Option ℚ :=
  match cols.findIdx? (fun n => n == c) with
  | none => none
  | some i =>
      match row.get? i with
      | none => none
      | some v => v

/-- `df[features].dropna()` keeps a row iff every feature cell is a
non-NaN value. -/
def validRow (features cols : List String) (row : List (Option ℚ)) : Bool :=
  features.all (fun f => (cellOf cols row f).isSome)

/-- `X = df[features].dropna()` (train_service.py line 720). -/
def validRows (features : List String) (df : Frame) : List (List (Option ℚ)) :=
  df.rows.filter (validRow features df.cols)

/-- `anomalies_df`: the rows of `X` the fitted model flags
(train_service.py lines 750-754); `predict` abstracts the seeded
IsolationForest's anomaly mask over `X`. -/
def anomsOf (features : List String)
    (predict : List (List (Option ℚ)) → List Bool) (df : Frame) :
    List (List (Option ℚ)) :=
  ((validRows features df).zip (predict (validRows features df))).filterMap
    (fun p => if p.2 then some p.1 else none)

/-- The z-score post-filter (train_service.py lines 762-764): when the
frame has a `zscore_20` column, keep only rows with
`|zscore_20| ≥ ADAPTIVE_ZSCORE_THRESHOLD = 3/2`; a NaN cell fails the
comparison, as in pandas. -/
def keptOf (features : List String)
    (predict : List (List (Option ℚ)) → List Bool) (df : Frame) :
    List (List (Option ℚ)) :=
  if df.cols.contains "zscore_20" then
    (anomsOf features predict df).filter (fun r =>
      match cellOf df.cols r "zscore_20" with
      | some v => decide ((3/2 : ℚ) ≤ |v|)
      | none => false)
  else anomsOf features predict df

/-- Outcome of one `detect_anomalies_adaptive` call: the returned
`anomalies_df` rows, the rows persisted to the sink, and whether an
`IsolationForest` was fit at all. -/
structure AdaptiveOutcome where
  returned : List (List (Option ℚ))
  inserted : List (List (Option ℚ))
  fitted : Bool
  deriving DecidableEq

/-- `detect_anomalies_adaptive` (train_service.py lines 702-821) from the
preprocessed frame on:
* line 716: empty frame → empty result;
* line 720: `X = df[features].dropna()` — `KeyError` if a feature column
  is absent from the frame;
* line 721: empty `X` → empty result;
* lines 725-727: fewer than `ADAPTIVE_MIN_SAMPLES = 20` valid rows →
  empty result, no model fit, nothing persisted;
* lines 749-754: otherwise fit/predict, anomalies are the masked rows;
* lines 762-764: the z-score post-filter (`keptOf`); the
  `ADAPTIVE_SCORE_THRESHOLD` filter is `None` by default and so absent;
* lines 785-815: persist each surviving row whose `(ticker, datetime)`
  key is not yet in the sink, abstracted by the `dbHas` predicate. -/
def detectAnomaliesAdaptiveModel (features : List String)
    (predict : List (List (Option ℚ)) → List Bool)
    (dbHas : List (Option ℚ) → Bool) (df : Frame) :
    Except String AdaptiveOutcome :=
  if df.rows.isEmpty then Except.ok ⟨[], [], false⟩
  else if features.all (fun f => df.cols.contains f) then
    if (validRows features df).isEmpty then Except.ok ⟨[], [], false⟩
    else if (validRows features df).length < 20 then Except.ok ⟨[], [], false⟩
    else
      Except.ok ⟨keptOf features predict df,
        (keptOf features predict df).filter (fun r => ! dbHas r), true⟩
  else Except.error "KeyError: features not in columns"

/-- C9: whenever the feature selection succeeds but fewer than 20 valid
(NaN-free) feature rows exist, adaptive detection is skipped entirely:
the result is empty, no model is fit, and nothing is persisted — and no
error is raised. -/
theorem c9_min_samples_gate (features : List String)
    (predict : List (List (Option ℚ)) → List Bool)
    (dbHas : List (Option ℚ) → Bool) (df : Frame)
    (hfeat : features.all (fun f => df.cols.contains f) = true)
    (hlen : (validRows features df).length < 20) :
    detectAnomaliesAdaptiveModel features predict dbHas df =
      Except.ok ⟨[], [], false⟩ := by
  rw [detectAnomaliesAdaptiveModel]
  by_cases hempty : df.rows.isEmpty
  · rw [if_pos hempty]
  · rw [if_neg hempty, if_pos hfeat]
    by_cases hX : (validRows features df).isEmpty
    · rw [if_pos hX]
    · rw [if_neg hX, if_pos hlen]

/-- Witness for C9: a frame with a `zscore_20` column and five valid rows
(fewer than 20) under an always-anomalous predictor: empty outcome. -/
theorem c9_min_samples_gate_witness :
    detectAnomaliesAdaptiveModel ["zscore_20"]
        (fun xs => xs.map (fun _ => true)) (fun _ => false)
        ⟨["zscore_20"], List.replicate 5 [some 2]⟩ =
      Except.ok ⟨[], [], false⟩ :=
  c9_min_samples_gate ["zscore_20"] (fun xs => xs.map (fun _ => true))
    (fun _ => false) ⟨["zscore_20"], List.replicate 5 [some 2]⟩
    (by decide) (by decide)

/-- C10: whenever the frame carries a `zscore_20` column, every row the
adaptive scorer returns — and a fortiori every row it persists, the
persisted rows being a subset of the returned ones — has a non-NaN
`zscore_20` cell of absolute value at least the default threshold 3/2:
the close-z-score post-filter is applied unconditionally on this path. -/
theorem c10_zscore_post_filter (features : List String)
    (predict : List (List (Option ℚ)) → List Bool)
    (dbHas : List (Option ℚ) → Bool) (df : Frame) (out : AdaptiveOutcome)
    (hrun : detectAnomaliesAdaptiveModel features predict dbHas df =
      Except.ok out)
    (hz : df.cols.contains "zscore_20" = true)
    (r : List (Option ℚ)) (hr : r ∈ out.returned ∨ r ∈ out.inserted) :
    ∃ v, cellOf df.cols r "zscore_20" = some v ∧ (3/2 : ℚ) ≤ |v| := by
  rw [detectAnomaliesAdaptiveModel] at hrun
  by_cases hempty : df.rows.isEmpty
  · rw [if_pos hempty] at hrun
    cases hrun
    rcases hr with hr | hr <;> cases hr
  · rw [if_neg hempty] at hrun
    by_cases hfeat : features.all (fun f => df.cols.contains f)
    · rw [if_pos hfeat] at hrun
      by_cases hX : (validRows features df).isEmpty
      · rw [if_pos hX] at hrun
        cases hrun
        rcases hr with hr | hr <;> cases hr
      · rw [if_neg hX] at hrun
        by_cases hlen : (validRows features df).length < 20
        · rw [if_pos hlen] at hrun
          cases hrun
          rcases hr with hr | hr <;> cases hr
        · rw [if_neg hlen] at hrun
          cases hrun
          have hkept : r ∈ keptOf features predict df := by
            rcases hr with hr | hr
            · exact hr
            · exact (List.mem_filter.mp hr).1
          rw [keptOf, if_pos hz] at hkept
          have hpred := (List.mem_filter.mp hkept).2
          cases hcell : cellOf df.cols r "zscore_20" with
          | none =>
              rw [hcell] at hpred
              cases hpred
          | some v =>
              rw [hcell] at hpred
              exact ⟨v, rfl, of_decide_eq_true hpred⟩
    · rw [if_neg hfeat] at hrun
      cases hrun

/-- Witness for C10: a frame of 21 valid rows whose `zscore_20` values are
2 except for a single 1 (below threshold), an all-anomalous predictor and
an empty sink.  The run returns and persists exactly the twenty rows with
`zscore_20 = 2`, and the theorem applied to the first returned row yields
its cell and bound. -/
theorem c10_zscore_post_filter_witness :
    detectAnomaliesAdaptiveModel ["zscore_20"]
        (fun xs => xs.map (fun _ => true)) (fun _ => false)
        ⟨["zscore_20"], [some 1] :: List.replicate 20 [some 2]⟩ =
      Except.ok ⟨List.replicate 20 [some 2], List.replicate 20 [some 2], true⟩ ∧
      (∃ v, cellOf ["zscore_20"] [some 2] "zscore_20" = some v ∧ (3/2 : ℚ) ≤ |v|) := by
  have hrun : detectAnomaliesAdaptiveModel ["zscore_20"]
      (fun xs => xs.map (fun _ => true)) (fun _ => false)
      ⟨["zscore_20"], [some 1] :: List.replicate 20 [some 2]⟩ =
      Except.ok ⟨List.replicate 20 [some 2], List.replicate 20 [some 2], true⟩ := by
    rw [detectAnomaliesAdaptiveModel]
    norm_num [validRows, validRow, cellOf, keptOf, anomsOf, List.filter,
      List.replicate, List.zip, List.zipWith, List.filterMap, abs_of_nonneg]
  refine ⟨hrun, ?_⟩
  exact c10_zscore_post_filter ["zscore_20"]
    (fun xs => xs.map (fun _ => true)) (fun _ => false)
    ⟨["zscore_20"], [some 1] :: List.replicate 20 [some 2]⟩
    ⟨List.replicate 20 [some 2], List.replicate 20 [some 2], true⟩
    hrun rfl [some 2] (Or.inl (by simp [List.replicate]))
